import Mathlib

/-!
Shallow embedding of the StarByteGames/Logger Go package (`src/main.go`,
the full variant with file sink, console flag and per-instance exit-code
table; `src/unnamed/part_000` is an earlier console-only variant of the
same functions).

External collaborators are modelled explicitly:
the wall clock is an input string (the already-formatted timestamp that
`time.Now().Format("2006-01-02 15:04:05")` produces); colorization is a
purely presentational wrapper supplied by the `fatih/color` package, so
console output is recorded as the uncolored rendered content; `os.Exit`
is modelled by setting the `exited` field of the world, after which no
further statement of the calling function runs; the Go `log` package
writes to standard error, recorded in the `stderr` field (the side
channel, distinct from the primary sinks).
-/

namespace StarByteLogger

/-- Severity levels from the `const` block of `main.go`:
`DEBUG INFO WARNING ERROR FATAL` with `iota` values 0..4. -/
inductive LogLevel where
  | DEBUG
  | INFO
  | WARNING
  | ERROR
  | FATAL
deriving DecidableEq, Repr

/-- The underlying integer value of a `LogLevel` (Go `iota`). -/
def LogLevel.toNat : LogLevel → Nat
  | .DEBUG   => 0
  | .INFO    => 1
  | .WARNING => 2
  | .ERROR   => 3
  | .FATAL   => 4

/-- The level tag chosen by the `switch` statement inside `Logger.log`. -/
def LogLevel.levelString : LogLevel → String
  | .DEBUG   => "DEBUG"
  | .INFO    => "INFO"
  | .WARNING => "WARNING"
  | .ERROR   => "ERROR"
  | .FATAL   => "FATAL"

/-- An `os.File` opened for writing: the sequence of strings appended by
`WriteString` calls (the file bytes are their concatenation in order) and
whether the handle is still open. -/
structure FileHandle where
  chunks : List String
  isOpen : Bool
deriving DecidableEq, Repr

/-- `File.WriteString`: appends to an open handle; on a closed handle the
write fails with an error that `Logger.log` ignores, leaving the content
unchanged. -/
def FileHandle.writeString (fh : FileHandle) (s : String) : FileHandle :=
  if fh.isOpen then { fh with chunks := fh.chunks ++ [s] } else fh

/-- The `Logger` struct of `main.go`. -/
structure Logger where
  level : LogLevel
  logFile : Option FileHandle
  logToConsole : Bool
  ExitCodes : List (String × Int)
deriving DecidableEq, Repr

/-- Go map lookup with the comma-ok form: `exitCode, exists := m[name]`. -/
def lookupCode : List (String × Int) → String → Option Int
  | [], _ => none
  | (k, v) :: rest, name => if k = name then some v else lookupCode rest name

/-- The exit-code table installed by `NewLogger` in `main.go` (the same
three entries as the package-level `exitCodes` map of the earlier
variant). -/
def defaultExitCodes : List (String × Int) :=
  [("ERROR", -1), ("SHUTDOWN", 0), ("SUCCESS", 0)]

/-- The whole observable state a call can touch: the logger (whose file
handle is mutable state), the console lines printed to standard output,
the lines the Go `log` package wrote to standard error, and whether
`os.Exit` has been reached and with which code. -/
structure World where
  logger : Logger
  console : List String
  stderr : List String
  exited : Option Int
deriving DecidableEq, Repr

/-- The line built by `fmt.Sprintf("[%s] %s: %s\n", timestamp, levelString, msg)`. -/
def renderLine (timestamp levelTag msg : String) : String :=
  "[" ++ timestamp ++ "] " ++ levelTag ++ ": " ++ msg ++ "\n"

/-- `Logger.Close` from `main.go`: `if l.logFile != nil { l.logFile.Close() }`.
Closing an already-closed `os.File` returns an error that is discarded, so
the state transition is the same; the content is untouched either way. -/
def World.Close (w : World) : World :=
  match w.logger.logFile with
  | none => w
  | some fh =>
    { w with logger := { w.logger with logFile := some { fh with isOpen := false } } }

/-- `Logger.handleFatal` from `main.go`: prints a notice on the side
channel, closes the owned file handle, then calls `os.Exit(exitCode)`. -/
def World.handleFatal (w : World) (exitCode : Int) : World :=
  let w1 := { w with stderr := w.stderr ++ ["A fatal error occurred. Exiting..."] }
  let w2 := w1.Close
  { w2 with exited := some exitCode }

/-- `Logger.log` from `main.go`: filter, render, write to file (errors
ignored), write to console, and on `FATAL` call
`handleFatal(l.ExitCodes["ERROR"])` — a Go map index without the ok flag,
which yields the zero value 0 when the key is absent. -/
def World.log (w : World) (timestamp : String) (level : LogLevel) (msg : String) : World :=
  if level.toNat < w.logger.level.toNat then w
  else
    let logLine := renderLine timestamp level.levelString msg
    let w1 :=
      match w.logger.logFile with
      | some fh =>
        { w with logger := { w.logger with logFile := some (fh.writeString logLine) } }
      | none => w
    let w2 :=
      if w1.logger.logToConsole then { w1 with console := w1.console ++ [logLine] } else w1
    if level = .FATAL then
      w2.handleFatal ((lookupCode w2.logger.ExitCodes "ERROR").getD 0)
    else
      w2

/-- `join` from `main.go`: `result += part + " "` over the variadic parts. -/
def join (parts : List String) : String :=
  parts.foldl (fun result part => result ++ part ++ " ") ""

/-- `Logger.Debug`. -/
def World.Debug (w : World) (timestamp : String) (msg : List String) : World :=
  w.log timestamp .DEBUG (join msg)

/-- `Logger.Info`. -/
def World.Info (w : World) (timestamp : String) (msg : List String) : World :=
  w.log timestamp .INFO (join msg)

/-- `Logger.Warning`. -/
def World.Warning (w : World) (timestamp : String) (msg : List String) : World :=
  w.log timestamp .WARNING (join msg)

/-- `Logger.Error`. -/
def World.Error (w : World) (timestamp : String) (msg : List String) : World :=
  w.log timestamp .ERROR (join msg)

/-- `Logger.Fatal` from `main.go`: joins the parts, logs at `FATAL`, then
resolves `exitCodeName` in the table with the `"SUCCESS"` fallback plus a
side-channel diagnostic, and calls `handleFatal`. Since `os.Exit` never
returns, any statement after a call that exited the process does not run:
that is the `w1.exited.isSome` guard. -/
def World.Fatal (w : World) (timestamp : String) (exitCodeName : String)
    (msg : List String) : World :=
  let message := join msg
  let w1 := w.log timestamp .FATAL message
  if w1.exited.isSome then w1
  else
    match lookupCode w1.logger.ExitCodes exitCodeName with
    | some exitCode => w1.handleFatal exitCode
    | none =>
      let w2 := { w1 with
        stderr := w1.stderr ++ ["Invalid exit code name. Defaulting to SUCCESS (0)."] }
      w2.handleFatal ((lookupCode w2.logger.ExitCodes "SUCCESS").getD 0)

/-- The flags `os.O_APPEND | os.O_CREATE | os.O_WRONLY` passed by `NewLogger`. -/
structure OpenFlags where
  append : Bool
  create : Bool
  writeOnly : Bool
deriving DecidableEq, Repr

/-- The open mode used by `NewLogger` in `main.go`. -/
def newLoggerFlags : OpenFlags := { append := true, create := true, writeOnly := true }

/-- Model of the external `os.OpenFile` collaborator: `ok` says whether
the path can be opened at all; a successful open keeps the prior file
content when the append flag is set and truncates otherwise. -/
def osOpenFile (flags : OpenFlags) (prior : List String) (ok : Bool) :
    Except String FileHandle :=
  if ok then
    Except.ok { chunks := if flags.append then prior else [], isOpen := true }
  else
    Except.error "open failed"

/-- `NewLogger` from `main.go`: opens the file with append-create-write
flags, propagates the open error, otherwise builds the logger with the
three-entry exit-code table. -/
def NewLogger (level : LogLevel) (prior : List String) (ok : Bool)
    (logToConsole : Bool) : Except String Logger :=
  match osOpenFile newLoggerFlags prior ok with
  | Except.error e => Except.error e
  | Except.ok file =>
    Except.ok
      { level := level
        logFile := some file
        logToConsole := logToConsole
        ExitCodes := defaultExitCodes }

/-- The chunks currently in the logger's file (empty when no file). -/
def fileChunks (w : World) : List String :=
  match w.logger.logFile with
  | some fh => fh.chunks
  | none => []

/-- A world freshly produced by `NewLogger` at the given threshold, with
an empty file, console enabled, nothing printed yet. -/
def testWorld : World :=
  { logger :=
      { level := .DEBUG
        logFile := some { chunks := [], isOpen := true }
        logToConsole := true
        ExitCodes := defaultExitCodes }
    console := []
    stderr := []
    exited := none }

/-- Running a sequence of `log` calls (timestamp, level, message) in order. -/
def runLog (w : World) : List (String × LogLevel × String) → World
  | [] => w
  | c :: rest => runLog (w.log c.1 c.2.1 c.2.2) rest

/-- At least one sink is enabled: an open file handle, or the console flag. -/
def sinkEnabled (w : World) : Prop :=
  (∃ fh, w.logger.logFile = some fh ∧ fh.isOpen = true) ∨ w.logger.logToConsole = true

/-- Something was written between two world states: the file chunks or the
console lines changed. -/
def wroteSomething (w w2 : World) : Prop :=
  fileChunks w2 ≠ fileChunks w ∨ w2.console ≠ w.console

/- Helper lemmas about the individual steps. -/

theorem fileChunks_Close (w : World) : fileChunks w.Close = fileChunks w := by
  obtain ⟨⟨lvl, file, con, ec⟩, cons, errs, ex⟩ := w
  cases file <;> simp [World.Close, fileChunks]

theorem Close_console (w : World) : w.Close.console = w.console := by
  obtain ⟨⟨lvl, file, con, ec⟩, cons, errs, ex⟩ := w
  cases file <;> simp [World.Close]

theorem Close_ExitCodes (w : World) : w.Close.logger.ExitCodes = w.logger.ExitCodes := by
  obtain ⟨⟨lvl, file, con, ec⟩, cons, errs, ex⟩ := w
  cases file <;> simp [World.Close]

theorem handleFatal_exited (w : World) (c : Int) : (w.handleFatal c).exited = some c := rfl

theorem handleFatal_fileChunks (w : World) (c : Int) :
    fileChunks (w.handleFatal c) = fileChunks w := by
  show fileChunks _ = _
  have h1 : fileChunks { w with stderr := w.stderr ++ ["A fatal error occurred. Exiting..."] } =
      fileChunks w := rfl
  simpa [World.handleFatal, fileChunks] using
    (fileChunks_Close { w with stderr := w.stderr ++ ["A fatal error occurred. Exiting..."] })

theorem handleFatal_console (w : World) (c : Int) :
    (w.handleFatal c).console = w.console := by
  simpa [World.handleFatal] using
    (Close_console { w with stderr := w.stderr ++ ["A fatal error occurred. Exiting..."] })

theorem handleFatal_ExitCodes (w : World) (c : Int) :
    (w.handleFatal c).logger.ExitCodes = w.logger.ExitCodes := by
  simpa [World.handleFatal] using
    (Close_ExitCodes { w with stderr := w.stderr ++ ["A fatal error occurred. Exiting..."] })

theorem log_ExitCodes (w : World) (ts : String) (lv : LogLevel) (m : String) :
    (w.log ts lv m).logger.ExitCodes = w.logger.ExitCodes := by
  unfold World.log
  by_cases hlt : lv.toNat < w.logger.level.toNat
  · simp [hlt]
  · simp only [hlt, if_false]
    by_cases hfat : lv = LogLevel.FATAL <;>
      obtain ⟨⟨lvl, file, con, ec⟩, cons, errs, ex⟩ := w <;>
      cases file <;> cases con <;>
      simp [hfat, handleFatal_ExitCodes]

theorem Fatal_ExitCodes (w : World) (ts ecn : String) (ps : List String) :
    (w.Fatal ts ecn ps).logger.ExitCodes = w.logger.ExitCodes := by
  unfold World.Fatal
  by_cases hex : (w.log ts LogLevel.FATAL (join ps)).exited.isSome
  · simp [hex, log_ExitCodes]
  · simp only [hex, if_false]
    cases hres : lookupCode (w.log ts LogLevel.FATAL (join ps)).logger.ExitCodes ecn <;>
      simp [hres, handleFatal_ExitCodes, log_ExitCodes]

/-- Shape of an accepted, non-fatal `log` call against an open file handle:
the rendered line is appended to the file, and to the console iff the
console flag is set; nothing else changes. -/
theorem log_accepted_nonfatal (w : World) (ts m : String) (lv : LogLevel)
    (hacc : ¬ lv.toNat < w.logger.level.toNat) (hnf : lv ≠ LogLevel.FATAL)
    (fh : FileHandle) (hf : w.logger.logFile = some fh) (ho : fh.isOpen = true) :
    w.log ts lv m =
      { w with
        logger := { w.logger with
          logFile := some { chunks := fh.chunks ++ [renderLine ts lv.levelString m],
                            isOpen := true } },
        console := if w.logger.logToConsole then
            w.console ++ [renderLine ts lv.levelString m]
          else w.console } := by
  unfold World.log
  simp only [hacc, if_false, hf, FileHandle.writeString, ho, if_true, hnf]
  obtain ⟨⟨lvl, file, con, ec⟩, cons, errs, ex⟩ := w
  cases con <;> simp_all

/-- Claim C1: the spec says `Fatal("SHUTDOWN", "msg")` terminates with the
exit-code table's value for `"SHUTDOWN"` (0). The code instead exits inside
`log`'s FATAL branch with the table's `"ERROR"` value (-1) before `Fatal`
ever resolves the name: on a fresh logger, `Fatal "SHUTDOWN"` exits with -1
although the table maps `"SHUTDOWN"` to 0. -/
theorem fatal_shutdown_exits_with_error_code :
    (testWorld.Fatal "2024-01-01 00:00:00" "SHUTDOWN" ["msg"]).exited = some (-1) ∧
    lookupCode defaultExitCodes "SHUTDOWN" = some 0 ∧ (-1 : Int) ≠ 0 := by
  refine ⟨rfl, rfl, by decide⟩

/-- Claim C2: the spec requires emit, then name resolution, then close,
then exit with the resolved code. In the code the process exits inside
step (1)'s write path with the `"ERROR"` entry, so step (2) never runs:
`Fatal "SUCCESS"` on a fresh logger exits with -1 even though resolving
`"SUCCESS"` yields 0, and the only side-channel line is `handleFatal`'s
notice (no resolution diagnostic ever appears). -/
theorem fatal_skips_name_resolution :
    (testWorld.Fatal "2024-01-01 00:00:00" "SUCCESS" ["boom"]).exited = some (-1) ∧
    lookupCode defaultExitCodes "SUCCESS" = some 0 ∧ (-1 : Int) ≠ 0 ∧
    (testWorld.Fatal "2024-01-01 00:00:00" "SUCCESS" ["boom"]).stderr =
      ["A fatal error occurred. Exiting..."] := by
  refine ⟨rfl, rfl, by decide, rfl⟩

/-- Claim C5: the spec says `Fatal` with an unknown name substitutes the
default `"SUCCESS"` code 0 and emits an invalid-name diagnostic. The code
exits with -1 inside `log` before reaching the fallback: the run ends with
exit code -1 and the side channel holds only `handleFatal`'s notice, no
invalid-name diagnostic, although `"UNKNOWN_NAME"` is indeed absent from
the table. -/
theorem fatal_unknown_name_exits_with_error_code :
    (testWorld.Fatal "2024-01-01 00:00:00" "UNKNOWN_NAME" ["msg"]).exited = some (-1) ∧
    (testWorld.Fatal "2024-01-01 00:00:00" "UNKNOWN_NAME" ["msg"]).stderr =
      ["A fatal error occurred. Exiting..."] ∧
    lookupCode defaultExitCodes "UNKNOWN_NAME" = none := by
  refine ⟨rfl, rfl, by decide⟩

/-- Claim C7: `NewLogger` uses append-create-write flags; when the file
cannot be opened it returns the open error and no `Logger`; when the open
succeeds the logger holds an open handle whose content is the prior file
content (append mode preserves it). -/
theorem newLogger_construction (level : LogLevel) (prior : List String) (c : Bool) :
    newLoggerFlags.append = true ∧
    NewLogger level prior false c = Except.error "open failed" ∧
    NewLogger level prior true c =
      Except.ok
        { level := level
          logFile := some { chunks := prior, isOpen := true }
          logToConsole := c
          ExitCodes := defaultExitCodes } := by
  refine ⟨rfl, rfl, rfl⟩

/-- Claim C8: `Close` is idempotent — a second `Close` is a no-op on the
whole world (so nothing is raised, since `Close` is a total function into
worlds with no error component), and a single `Close` already leaves the
file content untouched. -/
theorem Close_idempotent (w : World) :
    w.Close.Close = w.Close ∧ fileChunks w.Close = fileChunks w := by
  obtain ⟨⟨lvl, file, con, ec⟩, cons, errs, ex⟩ := w
  cases file <;> simp [World.Close, fileChunks]

theorem lookup_error_default : (lookupCode defaultExitCodes "ERROR").getD 0 = -1 := rfl

/-- Claim C3: a FATAL-severity message sent through the ordinary `log`
call passes the severity filter for every threshold (FATAL is the maximum
of the five severities) and reaches `handleFatal` with the implied
`"ERROR"` table entry, terminating the process with -1. -/
theorem log_fatal_passes_filter_and_exits (w : World) (ts m : String)
    (hE : w.logger.ExitCodes = defaultExitCodes) :
    w.logger.level.toNat ≤ LogLevel.FATAL.toNat ∧
    (w.log ts LogLevel.FATAL m).exited = some (-1) := by
  have hle : w.logger.level.toNat ≤ LogLevel.FATAL.toNat := by
    cases w.logger.level <;> simp [LogLevel.toNat]
  refine ⟨hle, ?_⟩
  have hlt : ¬ LogLevel.FATAL.toNat < w.logger.level.toNat := by omega
  obtain ⟨⟨lvl, file, con, ec⟩, cons, errs, ex⟩ := w
  simp only [Logger.ExitCodes] at hE
  subst hE
  cases file <;> cases con <;>
    simp [World.log, hlt, World.handleFatal, World.Close,
      FileHandle.writeString, lookup_error_default]

/-- Witness for C3 at a fresh logger. -/
theorem log_fatal_passes_filter_and_exits_witness :
    testWorld.logger.ExitCodes = defaultExitCodes ∧
    testWorld.logger.level.toNat ≤ LogLevel.FATAL.toNat ∧
    (testWorld.log "TS" LogLevel.FATAL "m").exited = some (-1) :=
  ⟨rfl, (log_fatal_passes_filter_and_exits testWorld "TS" "m" rfl).1,
    (log_fatal_passes_filter_and_exits testWorld "TS" "m" rfl).2⟩

/- Lemmas about `join`. -/

theorem join_foldl (parts : List String) (init : String) :
    parts.foldl (fun result part => result ++ part ++ " ") init = init ++ join parts := by
  induction parts generalizing init with
  | nil => simp [join]
  | cons p rest ih =>
    simp only [join, List.foldl_cons, String.empty_append]
    rw [ih (init ++ p ++ " "), ih (p ++ " ")]
    simp [String.append_assoc]

theorem join_cons (p : String) (rest : List String) :
    join (p :: rest) = p ++ " " ++ join rest := by
  have h := join_foldl rest ("" ++ p ++ " ")
  simpa [join, List.foldl_cons] using h

theorem strjoin_cons (a : String) (l : List String) :
    String.join (a :: l) = a ++ String.join l := by
  apply String.ext
  simp [String.data_join]

theorem join_eq_strjoin (parts : List String) :
    join parts = String.join (parts.map (fun p => p ++ " ")) := by
  induction parts with
  | nil => rfl
  | cons p rest ih => rw [join_cons, List.map_cons, strjoin_cons, ih, String.append_assoc]

/-- Claim C9: the message handed to the core `log` step is each part
followed by exactly one space (so single-space separators with one
trailing separator), the empty part list yields the empty message, and a
zero-part `Info` call on a passing threshold still emits a line. -/
theorem join_message_spec (parts : List String) (w : World) (ts : String)
    (hlev : w.logger.level.toNat ≤ LogLevel.INFO.toNat)
    (hcon : w.logger.logToConsole = true) :
    join parts = String.join (parts.map (fun p => p ++ " ")) ∧
    join ([] : List String) = "" ∧
    (w.Info ts []).console.length = w.console.length + 1 := by
  refine ⟨join_eq_strjoin parts, rfl, ?_⟩
  have hlt : ¬ LogLevel.INFO.toNat < w.logger.level.toNat := by omega
  unfold World.Info World.log
  obtain ⟨⟨lvl, file, con, ec⟩, cons, errs, ex⟩ := w
  simp only [Logger.logToConsole] at hcon
  subst hcon
  cases file <;> simp [hlt, join]

/-- Witness for C9 on a fresh logger with two parts and with none. -/
theorem join_message_spec_witness :
    testWorld.logger.level.toNat ≤ LogLevel.INFO.toNat ∧
    testWorld.logger.logToConsole = true ∧
    (join ["a", "b"] = String.join (["a", "b"].map (fun p => p ++ " ")) ∧
      join ([] : List String) = "" ∧
      (testWorld.Info "TS" []).console.length = testWorld.console.length + 1) :=
  ⟨by decide, rfl, join_message_spec ["a", "b"] testWorld "TS" (by decide) rfl⟩

/- Shape of accepted calls, used for the threshold iff. -/

theorem log_console_accepted (w : World) (ts m : String) (s : LogLevel)
    (hacc : ¬ s.toNat < w.logger.level.toNat) (hcon : w.logger.logToConsole = true) :
    (w.log ts s m).console = w.console ++ [renderLine ts s.levelString m] := by
  unfold World.log
  obtain ⟨⟨lvl, file, con, ec⟩, cons, errs, ex⟩ := w
  simp only [Logger.logToConsole] at hcon
  simp only at hacc
  subst hcon
  by_cases hfat : s = LogLevel.FATAL
  · subst hfat
    cases file <;> simp [hacc, handleFatal_console]
  · cases file <;> simp [hacc, hfat]

theorem log_fileChunks_accepted (w : World) (ts m : String) (s : LogLevel)
    (hacc : ¬ s.toNat < w.logger.level.toNat)
    (fh : FileHandle) (hf : w.logger.logFile = some fh) (ho : fh.isOpen = true) :
    fileChunks (w.log ts s m) = fileChunks w ++ [renderLine ts s.levelString m] := by
  unfold World.log
  obtain ⟨⟨lvl, file, con, ec⟩, cons, errs, ex⟩ := w
  simp only [Logger.logFile] at hf
  simp only at hacc
  subst hf
  by_cases hfat : s = LogLevel.FATAL
  · subst hfat
    cases con <;>
      simp [hacc, handleFatal_fileChunks, FileHandle.writeString, ho, fileChunks,
        World.handleFatal, World.Close]
  · cases con <;> simp [hacc, hfat, FileHandle.writeString, ho, fileChunks]

/-- Claim C4: with at least one enabled sink, a message is written to some
sink iff its severity is at or above the threshold; strictly below the
threshold the call leaves the world completely unchanged (zero bytes to
file, zero bytes to console, no other side effect). -/
theorem log_threshold_iff (w : World) (ts m : String) (s : LogLevel)
    (hs : sinkEnabled w) :
    (wroteSomething w (w.log ts s m) ↔ w.logger.level.toNat ≤ s.toNat) ∧
    (s.toNat < w.logger.level.toNat → w.log ts s m = w) := by
  by_cases hlt : s.toNat < w.logger.level.toNat
  · have heq : w.log ts s m = w := by unfold World.log; simp [hlt]
    refine ⟨?_, fun _ => heq⟩
    rw [heq]
    constructor
    · intro hw
      exact absurd hw (by simp [wroteSomething])
    · intro hle
      omega
  · have hle : w.logger.level.toNat ≤ s.toNat := by omega
    refine ⟨⟨fun _ => hle, fun _ => ?_⟩, fun h => absurd h hlt⟩
    rcases hs with ⟨fh, hf, ho⟩ | hcon
    · refine Or.inl ?_
      rw [log_fileChunks_accepted w ts m s hlt fh hf ho]
      simp
    · refine Or.inr ?_
      rw [log_console_accepted w ts m s hlt hcon]
      simp

/-- Witness for C4 on a fresh logger at INFO severity. -/
theorem log_threshold_iff_witness :
    sinkEnabled testWorld ∧
    (wroteSomething testWorld (testWorld.log "TS" LogLevel.INFO "m") ↔
      testWorld.logger.level.toNat ≤ LogLevel.INFO.toNat) :=
  ⟨Or.inr rfl, (log_threshold_iff testWorld "TS" "m" LogLevel.INFO (Or.inr rfl)).1⟩

/-- Claim C10: every logger built by `NewLogger` carries exactly the
three-entry table (`"ERROR"` to -1, `"SHUTDOWN"` to 0, `"SUCCESS"` to 0 —
it has the `"SUCCESS"` default and no other name, e.g. no
`"DB_INIT_ERROR"`), and none of `log`, `Debug`, `Info`, `Warning`,
`Error`, `Fatal`, `Close` changes the table. -/
theorem exit_table_exact_and_immutable (lg : Logger) (level : LogLevel)
    (prior : List String) (okFlag c : Bool)
    (hlg : NewLogger level prior okFlag c = Except.ok lg)
    (name : String) (hn1 : name ≠ "ERROR") (hn2 : name ≠ "SHUTDOWN")
    (hn3 : name ≠ "SUCCESS")
    (w : World) (ts ecn m : String) (lv : LogLevel) (ps : List String) :
    lg.ExitCodes = defaultExitCodes ∧
    lookupCode defaultExitCodes "ERROR" = some (-1) ∧
    lookupCode defaultExitCodes "SHUTDOWN" = some 0 ∧
    lookupCode defaultExitCodes "SUCCESS" = some 0 ∧
    lookupCode defaultExitCodes name = none ∧
    (w.log ts lv m).logger.ExitCodes = w.logger.ExitCodes ∧
    (w.Debug ts ps).logger.ExitCodes = w.logger.ExitCodes ∧
    (w.Info ts ps).logger.ExitCodes = w.logger.ExitCodes ∧
    (w.Warning ts ps).logger.ExitCodes = w.logger.ExitCodes ∧
    (w.Error ts ps).logger.ExitCodes = w.logger.ExitCodes ∧
    (w.Fatal ts ecn ps).logger.ExitCodes = w.logger.ExitCodes ∧
    w.Close.logger.ExitCodes = w.logger.ExitCodes := by
  refine ⟨?_, rfl, rfl, rfl, ?_, log_ExitCodes w ts lv m, log_ExitCodes w ts _ _,
    log_ExitCodes w ts _ _, log_ExitCodes w ts _ _, log_ExitCodes w ts _ _,
    Fatal_ExitCodes w ts ecn ps, Close_ExitCodes w⟩
  · cases okFlag with
    | false => simp [NewLogger, osOpenFile] at hlg
    | true =>
      simp only [NewLogger, osOpenFile, if_pos, Except.ok.injEq] at hlg
      rw [← hlg]
  · simp [defaultExitCodes, lookupCode, Ne.symm hn1, Ne.symm hn2, Ne.symm hn3]

/-- Witness for C10 at a fresh logger and the name `"DB_INIT_ERROR"`. -/
theorem exit_table_exact_and_immutable_witness :
    NewLogger LogLevel.DEBUG [] true true = Except.ok testWorld.logger ∧
    ("DB_INIT_ERROR" : String) ≠ "ERROR" ∧
    testWorld.logger.ExitCodes = defaultExitCodes ∧
    lookupCode defaultExitCodes "DB_INIT_ERROR" = none ∧
    (testWorld.Fatal "TS" "X" ["m"]).logger.ExitCodes = testWorld.logger.ExitCodes := by
  have h := exit_table_exact_and_immutable testWorld.logger LogLevel.DEBUG [] true true rfl
    "DB_INIT_ERROR" (by decide) (by decide) (by decide) testWorld "TS" "X" "m" LogLevel.INFO
    ["m"]
  exact ⟨rfl, by decide, h.1, h.2.2.2.2.1, h.2.2.2.2.2.2.2.2.2.2.1⟩

theorem levelString_no_newline (lv : LogLevel) :
    (LogLevel.levelString lv).data.count (Char.ofNat 10) = 0 := by
  cases lv <;> rfl

/-- Claim C6: running N accepted (at-or-above-threshold, non-FATAL)
messages against an open file appends exactly the N rendered lines, in
call order, with no loss or duplication; every line has the fixed
bracket-timestamp shape; and when neither the timestamp nor the message
contains a newline, each line contains exactly one newline, as its final
character — so the file gains exactly N newline-terminated lines. -/
theorem file_roundtrip (w : World) (calls : List (String × LogLevel × String))
    (fh : FileHandle) (hf : w.logger.logFile = some fh) (ho : fh.isOpen = true)
    (hacc : ∀ c ∈ calls, w.logger.level.toNat ≤ c.2.1.toNat ∧ c.2.1 ≠ LogLevel.FATAL) :
    fileChunks (runLog w calls) =
      fileChunks w ++ calls.map (fun c => renderLine c.1 c.2.1.levelString c.2.2) ∧
    (∀ ts lv m2, renderLine ts (LogLevel.levelString lv) m2 =
      "[" ++ ts ++ "] " ++ LogLevel.levelString lv ++ ": " ++ m2 ++ "\n") ∧
    (∀ ts lv m2, ts.data.count (Char.ofNat 10) = 0 → m2.data.count (Char.ofNat 10) = 0 →
      (renderLine ts (LogLevel.levelString lv) m2).data.count (Char.ofNat 10) = 1 ∧
      (renderLine ts (LogLevel.levelString lv) m2).data.getLast? = some (Char.ofNat 10)) := by
  refine ⟨?_, fun ts lv m2 => rfl, fun ts lv m2 hts hm => ⟨?_, ?_⟩⟩
  · induction calls generalizing w fh with
    | nil => simp [runLog]
    | cons c rest ih =>
      obtain ⟨hacc1, hnf⟩ := hacc c (List.mem_cons_self c rest)
      have hstep := log_accepted_nonfatal w c.1 c.2.2 c.2.1 (by omega) hnf fh hf ho
      have h2 := ih (w.log c.1 c.2.1 c.2.2)
        { chunks := fh.chunks ++ [renderLine c.1 c.2.1.levelString c.2.2], isOpen := true }
        (by rw [hstep]) (rfl)
        (by rw [hstep]; exact fun c2 hc2 => hacc c2 (List.mem_cons_of_mem c hc2))
      show fileChunks (runLog (w.log c.1 c.2.1 c.2.2) rest) = _
      rw [h2]
      have hc2 : fileChunks (w.log c.1 c.2.1 c.2.2) =
          fh.chunks ++ [renderLine c.1 c.2.1.levelString c.2.2] := by
        rw [hstep]
        rfl
      have hch : fileChunks w = fh.chunks := by simp [fileChunks, hf]
      rw [hc2, hch]
      simp [List.append_assoc]
  · simp only [renderLine, String.data_append, List.count_append,
      levelString_no_newline, hts, hm]
    rfl
  · have h1 : (renderLine ts (LogLevel.levelString lv) m2).data =
        ("[" ++ ts ++ "] " ++ LogLevel.levelString lv ++ ": " ++ m2).data ++
          [Char.ofNat 10] := rfl
    rw [h1]
    exact List.getLast?_concat _

/-- Witness for C6: two accepted messages on a fresh logger produce the
two rendered lines in order. -/
theorem file_roundtrip_witness :
    testWorld.logger.logFile = some { chunks := [], isOpen := true } ∧
    fileChunks (runLog testWorld
        [("T1", LogLevel.INFO, "a"), ("T2", LogLevel.ERROR, "b")]) =
      fileChunks testWorld ++ ["[T1] INFO: a\n", "[T2] ERROR: b\n"] := by
  have h := (file_roundtrip testWorld
    [("T1", LogLevel.INFO, "a"), ("T2", LogLevel.ERROR, "b")]
    { chunks := [], isOpen := true } rfl rfl (by decide)).1
  exact ⟨rfl, by simpa [renderLine, LogLevel.levelString] using h⟩

end StarByteLogger
